import Mathlib

/-!
Shallow embedding of the deployment pipeline of `lib/main.js` (node-lambda).

Remote platform calls and external processes are modelled by their settled
outcomes: an environment record supplies, for every call the code can make,
the `Except` value the corresponding promise or callback settles with.
Stateful code (the module-level zip builder) is modelled by explicit state
passing.  Promise combinators (`Promise.all`, `then`, `catch`) are given
their denotation over settled outcomes.
-/

-- Decidable equality of settled outcomes, for evaluating the embedding on
-- concrete inputs.
deriving instance DecidableEq for Except

/-- Errors carried by rejected promises and thrown exceptions. -/
abbrev Err := String

/-- Opaque response payloads of remote platform calls.  Where the source reads
`results.FunctionArn`, the payload is taken to be that identifier. -/
abbrev ApiData := String

/-- Denotation of `Promise.all` over a list of settled promises: rejects with
the error of the first rejected element in list order, otherwise resolves with
the list of values.  (The source rejects with the temporally first rejection;
this determinization agrees with it whenever at most one element rejects, and
in every statement below only rejection itself or a unique rejection matters.) -/
def promiseAll {α : Type} : List (Except Err α) → Except Err (List α)
  | [] => .ok []
  | .error e :: _ => .error e
  | .ok a :: xs =>
    match promiseAll xs with
    | .error e => .error e
    | .ok as => .ok (a :: as)

/-- Denotation of a two-element heterogeneous `Promise.all([p, q])`. -/
def promiseAll2 {α β : Type} : Except Err α → Except Err β → Except Err (α × β)
  | .error e, _ => .error e
  | .ok _, .error e => .error e
  | .ok a, .ok b => .ok (a, b)

/-- Denotation of `p.then(f)` with a callable handler `f` (rejections pass
through, a resolution is fed to `f`). -/
def thenFn {α β : Type} (p : Except Err α) (f : α → Except Err β) : Except Err β :=
  match p with
  | .error e => .error e
  | .ok a => f a

/-- Denotation of `p.then(v)` when the argument `v` is NOT callable (for
example another promise).  ECMAScript `PerformPromiseThen` replaces a
non-callable `onFulfilled` argument by the identity continuation, so the
resulting promise settles exactly as `p` does and `v` is ignored entirely:
it is neither awaited nor able to reject the chain. -/
def thenNonCallable {α β : Type} (p : Except Err α) (v : Except Err β) : Except Err α :=
  let _ := v
  p

/-- A desired event-source binding: one entry of the `EventSourceMappings`
collection of the event-source file.  Fields the file leaves out are `none`
(JavaScript `undefined`). -/
structure EventSource where
  eventSourceArn : String
  enabled : Option Bool
  batchSize : Option Nat
  startingPosition : Option String
  deriving DecidableEq

/-- One existing remote event-source mapping as returned by
`listEventSourceMappings`: its source ARN and its remote handle (`UUID`). -/
structure ExistingEventSource where
  eventSourceArn : String
  uuid : String
  deriving DecidableEq

/-- The string-tagged operation records `_updateEventSources` pushes onto
`updateEventSourceList` (tag member `type`), as a tagged variant.  An update
record carries the desired `Enabled` and `BatchSize` values through unchanged
(possibly `undefined`) plus the existing mapping handle; it has no
starting-position member.  A create record carries defaulted fields. -/
inductive UpdateEventSourceOp where
  | create (functionName eventSourceArn : String) (enabled : Bool) (batchSize : Nat)
      (startingPosition : String)
  | update (functionName : String) (enabled : Option Bool) (batchSize : Option Nat)
      (uuid : String)
  | delete (uuid : String)
  deriving DecidableEq

/-- Truth of the `type` tag being `create`. -/
def UpdateEventSourceOp.isCreate : UpdateEventSourceOp → Bool
  | .create _ _ _ _ _ => true
  | _ => false

/-- Truth of the `type` tag being `update`. -/
def UpdateEventSourceOp.isUpdate : UpdateEventSourceOp → Bool
  | .update _ _ _ _ => true
  | _ => false

/-- Truth of the `type` tag being `delete`. -/
def UpdateEventSourceOp.isDelete : UpdateEventSourceOp → Bool
  | .delete _ => true
  | _ => false

/-- The inner search of the first loop of `_updateEventSources`: the first
element of `existingEventSourceList` with the given `EventSourceArn` (the
loop pushes an update for the first match and then breaks). -/
def findByArn (existingEventSourceList : List ExistingEventSource) (arn : String) :
    Option ExistingEventSource :=
  existingEventSourceList.find? (fun e => e.eventSourceArn == arn)

/-- Create-path default for `Enabled`: the JavaScript conditional
`v ? v : false`; both `undefined` and `false` are falsy, so the result is the
declared value or `false`. -/
def jsEnabledDefault : Option Bool → Bool
  | some b => b
  | none => false

/-- Create-path default for `BatchSize`: `v ? v : 100`; `undefined` and the
number `0` are falsy, so both are replaced by `100`. -/
def jsBatchSizeDefault : Option Nat → Nat
  | some n => if n = 0 then 100 else n
  | none => 100

/-- Create-path default for `StartingPosition`: `v ? v : "LATEST"`;
`undefined` and the empty string are falsy. -/
def jsStartingPositionDefault : Option String → String
  | some s => if s = "" then "LATEST" else s
  | none => "LATEST"

/-- The operation list computed by the two loops of `_updateEventSources`:
first, for every desired binding in order, an update (first matching existing
mapping by ARN, carrying its `UUID`) or else a create with defaulted fields;
then, for every existing mapping in order with no desired match, a delete of
its `UUID`. -/
def updateEventSourceList (functionName : String)
    (existingEventSourceList : List ExistingEventSource)
    (eventSourceList : List EventSource) : List UpdateEventSourceOp :=
  (eventSourceList.map fun es =>
    match findByArn existingEventSourceList es.eventSourceArn with
    | some ex => .update functionName es.enabled es.batchSize ex.uuid
    | none =>
        .create functionName es.eventSourceArn (jsEnabledDefault es.enabled)
          (jsBatchSizeDefault es.batchSize) (jsStartingPositionDefault es.startingPosition)) ++
  ((existingEventSourceList.filter fun ex =>
      !(eventSourceList.any fun es => es.eventSourceArn == ex.eventSourceArn)).map fun ex =>
    UpdateEventSourceOp.delete ex.uuid)

/-- Settled outcomes of the three event-source-mapping platform calls. -/
structure BindingApi where
  createEventSourceMapping : String → String → Bool → Nat → String → Except Err ApiData
  updateEventSourceMapping : String → Option Bool → Option Nat → String → Except Err ApiData
  deleteEventSourceMapping : String → Except Err ApiData

/-- Dispatch of one operation record to its platform call (the `switch` over
the `type` tag inside the `Promise.all` map of `_updateEventSources`). -/
def execBindingOp (api : BindingApi) : UpdateEventSourceOp → Except Err ApiData
  | .create fn arn en bs sp => api.createEventSourceMapping fn arn en bs sp
  | .update fn en bs uuid => api.updateEventSourceMapping fn en bs uuid
  | .delete uuid => api.deleteEventSourceMapping uuid

namespace Lambda

/-- The tail of `_updateEventSources`: a `null` desired list resolves `[]` at
once; otherwise every computed operation is issued (the `map` starts all the
platform calls before `Promise.all` waits on them) and the combined promise
resolves with one outcome per operation or rejects with the first failure;
the trailing `.catch` re-rejects the same error. -/
def updateEventSources (api : BindingApi) (functionName : String)
    (existingEventSourceList : List ExistingEventSource)
    (eventSourceList : Option (List EventSource)) : Except Err (List ApiData) :=
  match eventSourceList with
  | none => .ok []
  | some lst =>
      promiseAll ((updateEventSourceList functionName existingEventSourceList lst).map
        (execBindingOp api))

/-- The platform calls `_updateEventSources` starts: none for a `null` desired
list, otherwise one per computed operation — started by the synchronous `map`
regardless of any operation outcome. -/
def updateEventSourcesStarted (functionName : String)
    (existingEventSourceList : List ExistingEventSource)
    (eventSourceList : Option (List EventSource)) : List UpdateEventSourceOp :=
  match eventSourceList with
  | none => []
  | some lst => updateEventSourceList functionName existingEventSourceList lst

end Lambda

/-- One element of the `paramsList` of `_updateScheduleEvents`: a schedule
entry of the event-source file (kept opaque, the source never inspects it)
with the `FunctionArn` member assigned onto it. -/
structure ScheduleParams where
  schedule : String
  functionArn : String
  deriving DecidableEq

/-- What `_updateScheduleEvents` does: the `scheduleEvents.add` calls it makes
(in order, during the synchronous `map`) and the promise it returns. -/
structure ScheduleApply where
  invoked : List ScheduleParams
  result : Except Err (List ScheduleParams)

namespace Lambda

/-- The `_updateScheduleEvents` function: a `null` schedule list resolves `[]`
at once.  Otherwise `paramsList` assigns the function identifier onto every
schedule, and `paramsList.map(params => scheduleEvents.add(params))` invokes
`add` for every element during the synchronous `map` — every upsert is started
there, before any of them settles.  The following
`reduce((a, b) => a.then(b), Promise.resolve())` passes each started promise
`b` as the `onFulfilled` argument of `then`; `b` is not callable, so each link
is `thenNonCallable` and the chain neither awaits the upserts nor observes
their failures.  The final `.then` resolves with `paramsList` and the
`.catch` re-rejects unchanged. -/
def updateScheduleEvents (add : ScheduleParams → Except Err ApiData)
    (functionArn : String) (scheduleList : Option (List String)) : ScheduleApply :=
  match scheduleList with
  | none => ⟨[], .ok []⟩
  | some lst =>
      let paramsList := lst.map fun s => ScheduleParams.mk s functionArn
      let chained := (paramsList.map add).foldl
        (fun a b => thenNonCallable a b) (Except.ok PUnit.unit)
      ⟨paramsList, thenFn chained (fun _ => .ok paramsList)⟩

end Lambda

/-- Settled outcomes of the two calls `_uploadExisting` can make. -/
structure UploadEnv where
  updateFunctionCode : Except Err ApiData
  updateFunctionConfiguration : Except Err ApiData

/-- The calls made by `_uploadExisting`, in order. -/
inductive UploadCall where
  | updateFunctionCode
  | updateFunctionConfiguration
  deriving DecidableEq

namespace Lambda

/-- The `_uploadExisting` function: `updateFunctionCode` is issued first; its
callback rejects on error without issuing anything else, and only on success
issues `updateFunctionConfiguration`, whose callback rejects on error and
otherwise resolves with its data.  Returns the settled promise and the calls
made, in order. -/
def uploadExisting (env : UploadEnv) : Except Err ApiData × List UploadCall :=
  match env.updateFunctionCode with
  | .error e => (.error e, [UploadCall.updateFunctionCode])
  | .ok _ =>
      (env.updateFunctionConfiguration,
        [UploadCall.updateFunctionCode, UploadCall.updateFunctionConfiguration])

end Lambda

/-- The parsed shape of the event-source file: a bare array (the
backward-compatible form) or an object with optional `EventSourceMappings`
and `ScheduleEvents` members. -/
inductive EventSourceDoc where
  | legacyList (mappings : List EventSource)
  | document (mappings : Option (List EventSource)) (schedules : Option (List String))
  deriving DecidableEq

/-- The value `_eventSourceList` returns: the two members, each possibly
`null` (the no-file case). -/
structure EventSourceListResult where
  eventSourceMappings : Option (List EventSource)
  scheduleEvents : Option (List String)
  deriving DecidableEq

namespace Lambda

/-- The `_eventSourceList` function.  Its input is the declared event-source
file: `none` when `program.eventSourceFile` is unset, otherwise the outcome of
`fs.readJsonSync` on it.  No declared file yields both members `null`; a read
or parse failure is rethrown; a bare array is returned wholesale as
`EventSourceMappings` with an empty `ScheduleEvents`; an object has each
missing member defaulted to the empty list. -/
def eventSourceList (eventSourceFile : Option (Except Err EventSourceDoc)) :
    Except Err EventSourceListResult :=
  match eventSourceFile with
  | none => .ok ⟨none, none⟩
  | some (.error e) => .error e
  | some (.ok (.legacyList mappings)) => .ok ⟨some mappings, some []⟩
  | some (.ok (.document mappings schedules)) =>
      .ok ⟨some (mappings.getD []), some (schedules.getD [])⟩

end Lambda

/-- Settled outcomes of every remote call one region can make. -/
structure RegionEnv where
  getFunction : Except Err ApiData
  createFunction : Except Err ApiData
  listEventSourceMappings : Except Err (List ExistingEventSource)
  upload : UploadEnv
  bindings : BindingApi
  addSchedule : ScheduleParams → Except Err ApiData

/-- A remote call started while reconciling one region. -/
inductive RegionCall where
  | getFunction
  | createFunction
  | listEventSourceMappings
  | updateFunctionCode
  | updateFunctionConfiguration
  | bindingOp (op : UpdateEventSourceOp)
  | scheduleAdd (p : ScheduleParams)
  deriving DecidableEq

/-- The upload calls of `_uploadExisting` as region calls. -/
def UploadCall.toRegionCall : UploadCall → RegionCall
  | .updateFunctionCode => .updateFunctionCode
  | .updateFunctionConfiguration => .updateFunctionConfiguration

/-- The value `_deployToRegion` resolves with: the two-element `Promise.all`
array of the taken path.  On the create path the binding outcomes come first;
on the update path the schedule parameter list comes first. -/
inductive RegionValue where
  | created (bindingOutcomes : List ApiData) (scheduleParams : List ScheduleParams)
  | updated (scheduleParams : List ScheduleParams) (bindingOutcomes : List ApiData)
  deriving DecidableEq

namespace Lambda

/-- The `_deployToRegion` function over settled remote-call outcomes, paired
with the remote calls started (in the order the code issues them; calls
launched concurrently by one `Promise.all` are listed in the order of its
array, and calls launched by a continuation follow the block that launches
them).  The probe `getFunction` has a binary outcome: ANY error — the code
cannot tell a missing function from any other failure — takes the create
path, success takes the update path.  Create path: `_uploadNew`; only on its
success are `_updateEventSources` (against an empty existing list) and
`_updateScheduleEvents` started, combined by `Promise.all`.  Update path:
`_listEventSourceMappings` first (rejecting the region on error); then one
`Promise.all` starts `_uploadExisting` (whose continuation starts the
schedule work only after a successful upload) and, concurrently,
`_updateEventSources` over the full desired list. -/
def deployToRegion (env : RegionEnv) (functionName : String)
    (esl : EventSourceListResult) : Except Err RegionValue × List RegionCall :=
  match env.getFunction with
  | .error _ =>
      match env.createFunction with
      | .error e => (.error e, [.getFunction, .createFunction])
      | .ok arn =>
          let bindings :=
            updateEventSources env.bindings functionName [] esl.eventSourceMappings
          let schedules := updateScheduleEvents env.addSchedule arn esl.scheduleEvents
          ((promiseAll2 bindings schedules.result).map fun p => RegionValue.created p.1 p.2,
            [RegionCall.getFunction, RegionCall.createFunction] ++
              (updateEventSourcesStarted functionName [] esl.eventSourceMappings).map
                RegionCall.bindingOp ++
              schedules.invoked.map RegionCall.scheduleAdd)
  | .ok _ =>
      match env.listEventSourceMappings with
      | .error e => (.error e, [.getFunction, .listEventSourceMappings])
      | .ok existing =>
          let upload := uploadExisting env.upload
          let bindings :=
            updateEventSources env.bindings functionName existing esl.eventSourceMappings
          let schedThen : Except Err (List ScheduleParams) × List RegionCall :=
            match upload.1 with
            | .error e => (.error e, [])
            | .ok arn =>
                let s := updateScheduleEvents env.addSchedule arn esl.scheduleEvents
                (s.result, s.invoked.map RegionCall.scheduleAdd)
          ((promiseAll2 schedThen.1 bindings).map fun p => RegionValue.updated p.1 p.2,
            [RegionCall.getFunction, RegionCall.listEventSourceMappings] ++
              upload.2.map UploadCall.toRegionCall ++
              (updateEventSourcesStarted functionName existing esl.eventSourceMappings).map
                RegionCall.bindingOp ++
              schedThen.2)

end Lambda

/-- The configuration inputs the modelled entry points read. -/
structure Program where
  runtime : String
  region : String
  functionName : String
  environment : Option String
  lambdaVersion : Option String
  deriving DecidableEq

/-- JavaScript `String.prototype.split` with a one-character separator, over
character lists: splitting the empty string yields one empty piece, and each
separator occurrence starts a new piece. -/
def splitOnChar (sep : Char) : List Char → List (List Char)
  | [] => [[]]
  | c :: rest =>
      match splitOnChar sep rest with
      | [] => if c = sep then [[], []] else [[c]]
      | s :: ss => if c = sep then [] :: s :: ss else (c :: s) :: ss

/-- The character filter of `_params`: every character outside
`[a-zA-Z0-9-_]` is replaced by an underscore. -/
def sanitizeFunctionNameChar (c : Char) : Char :=
  if c.isAlpha ∨ c.isDigit ∨ c = '-' ∨ c = '_' then c else '_'

/-- The `FunctionName` member built by `_params`: base name plus optional
environment and version suffixes, sanitized. -/
def paramsFunctionName (program : Program) : String :=
  String.mk ((program.functionName ++
    (match program.environment with
     | some e => "-" ++ e
     | none => "") ++
    (match program.lambdaVersion with
     | some v => "-" ++ v
     | none => "")).toList.map sanitizeFunctionNameChar)

/-- Inputs of a whole deploy: the archive outcome, the remote-call
outcomes, and the declared event-source file (the source reads the same file
once per region; its parse is the same each time). -/
structure DeployEnv where
  archive : Except Err String
  regionEnv : String → RegionEnv
  eventSourceFile : Option (Except Err EventSourceDoc)

/-- The observable outcome of `deploy`: a synchronous throw out of the
archive callback, the logged rejection of the combined `Promise.all`, or the
aggregated per-region results it resolves with. -/
inductive DeployOutcome where
  | thrown (e : Err)
  | loggedError (e : Err)
  | results (rs : List RegionValue)
  deriving DecidableEq

namespace Lambda

/-- The region list of `deploy`: `program.region.split(",")`. -/
def deployRegionList (program : Program) : List String :=
  (splitOnChar (',') program.region.toList).map String.mk

/-- The `deploy` function: the archive callback throws on archive error;
`_eventSourceList` runs synchronously inside each region task and a parse
failure there also propagates as a throw; otherwise one `_deployToRegion`
task per region is started and `Promise.all` combines them — resolving with
one value per region only when every region resolves, and rejecting with the
error of the first failing region (which the final `.catch` merely logs),
discarding the values of every other region.  The trace pairs each region
with the remote calls it started; the calls of every region are started
regardless of the outcomes of other regions. -/
def deploy (env : DeployEnv) (program : Program) :
    DeployOutcome × List (String × RegionCall) :=
  match env.archive with
  | .error e => (.thrown e, [])
  | .ok _ =>
      match eventSourceList env.eventSourceFile with
      | .error e => (.thrown e, [])
      | .ok esl =>
          let fn := paramsFunctionName program
          let per := (deployRegionList program).map fun r =>
            (r, deployToRegion (env.regionEnv r) fn esl)
          let trace := per.flatMap fun rp => rp.2.2.map fun c => (rp.1, c)
          match promiseAll (per.map fun rp => rp.2.1) with
          | .error e => (.loggedError e, trace)
          | .ok rs => (.results rs, trace)

end Lambda

/-- The runtimes accepted by the allow-list check at the top of `run`. -/
def allowedRuntimes : List String := ["nodejs4.3", "nodejs6.10"]

/-- The observable outcome of the `run` entry point for this model: an early
`process.exit` or proceeding to load and invoke the handler. -/
inductive RunOutcome where
  | exited (code : Nat)
  | proceeded
  deriving DecidableEq

namespace Lambda

/-- The `run` entry point: its first statement checks the runtime against the
allow-list and exits with code 254 before touching any file or spawning any
process; a supported runtime proceeds to the handler machinery. -/
def run (program : Program) : RunOutcome :=
  if allowedRuntimes.contains program.runtime then .proceeded else .exited 254

end Lambda

/-- Removal of the first occurrence of `pat` (JavaScript
`String.prototype.replace` with a string pattern and empty replacement
string; a string not containing the pattern is returned unchanged). -/
def removeFirst : List Char → List Char → List Char
  | [], _ => []
  | c :: rest, pat =>
      if pat.isPrefixOf (c :: rest) then (c :: rest).drop pat.length
      else c :: removeFirst rest pat

/-- String form of `removeFirst`. -/
def jsReplaceFirst (s pat : String) : String :=
  String.mk (removeFirst s.toList pat.toList)

/-- The `zip.file(name, content)` call on the builder state: replace the
entry with that name in place, or append a new entry. -/
def zipAdd : List (String × String) → String → String → List (String × String)
  | [], name, content => [(name, content)]
  | (m, d) :: rest, name, content =>
      if m = name then (m, content) :: rest else (m, d) :: zipAdd rest name content

/-- One entry met by the `fs.walk` of `_zip`. -/
structure WalkEntry where
  path : String
  isDirectory : Bool
  content : String
  deriving DecidableEq

/-- One `data` event of the walk in `_zip`: directories are skipped, any
other file is added to the builder under its path with the leading
`codeDirectory` plus separator removed. -/
def zipWalkStep (codeDirectory : String) (zip : List (String × String))
    (file : WalkEntry) : List (String × String) :=
  if file.isDirectory then zip
  else zipAdd zip (jsReplaceFirst file.path (codeDirectory ++ "/")) file.content

namespace Lambda

/-- The `_zip` function.  The builder `zip` is created once at module load
(`const zip = new (require("node-zip"))()`) and never re-created, so each
build folds its walk over whatever state earlier builds left in it; the
`end` event generates the archive from the full resulting state.  Returns
the new builder state and the generated archive. -/
def zipBuild (codeDirectory : String) (zipState : List (String × String))
    (files : List WalkEntry) : List (String × String) × List (String × String) :=
  let z := files.foldl (zipWalkStep codeDirectory) zipState
  (z, z)

end Lambda

/-! Helper lemmas shared by the claim theorems. -/

theorem promiseAll_map_ok {α β : Type} (f : α → β) (l : List α) :
    promiseAll (l.map fun a => Except.ok (f a)) = .ok (l.map f) := by
  induction l with
  | nil => rfl
  | cons x xs ih => simp [promiseAll, ih]

theorem promiseAll_eq_ok {α : Type} (l : List (Except Err α)) (v : List α) :
    promiseAll l = .ok v ↔ l = v.map Except.ok := by
  induction l generalizing v with
  | nil => cases v <;> simp [promiseAll]
  | cons x xs ih =>
    cases x with
    | error e => cases v <;> simp [promiseAll]
    | ok a =>
      cases hx : promiseAll xs with
      | error e =>
        cases v with
        | nil => simp [promiseAll, hx]
        | cons b bs =>
          simp only [promiseAll, hx, List.map_cons, List.cons.injEq, Except.ok.injEq]
          constructor
          · intro h; cases h
          · rintro ⟨h1, h2⟩
            have hok := (ih bs).mpr h2
            rw [hx] at hok
            cases hok
      | ok as =>
        have hxs := (ih as).mp hx
        cases v with
        | nil => simp [promiseAll, hx]
        | cons b bs =>
          simp only [promiseAll, hx, List.map_cons, List.cons.injEq, Except.ok.injEq]
          constructor
          · rintro ⟨rfl, rfl⟩
            exact ⟨rfl, hxs⟩
          · rintro ⟨rfl, h2⟩
            have hok := (ih bs).mpr h2
            rw [hx] at hok
            cases hok
            exact ⟨rfl, rfl⟩

theorem promiseAll_append_error {α : Type} (l1 l2 : List (Except Err α)) (e : Err)
    (h : ∀ x ∈ l1, ∃ a, x = Except.ok a) :
    promiseAll (l1 ++ Except.error e :: l2) = .error e := by
  induction l1 with
  | nil =>
    cases l2 <;> simp [promiseAll]
  | cons x xs ih =>
    obtain ⟨a, rfl⟩ := h x (List.mem_cons_self x xs)
    have hrest := ih fun y hy => h y (List.mem_cons_of_mem _ hy)
    simp [promiseAll, hrest]

theorem foldl_thenNonCallable {α β : Type} (l : List (Except Err β)) (i : Except Err α) :
    l.foldl (fun a b => thenNonCallable a b) i = i := by
  induction l generalizing i with
  | nil => rfl
  | cons x xs ih => exact ih i

theorem countP_ops_partition (l : List UpdateEventSourceOp) :
    l.countP UpdateEventSourceOp.isCreate + l.countP UpdateEventSourceOp.isUpdate +
      l.countP UpdateEventSourceOp.isDelete = l.length := by
  induction l with
  | nil => simp
  | cons x xs ih =>
    cases x <;>
      simp [List.countP_cons, UpdateEventSourceOp.isCreate, UpdateEventSourceOp.isUpdate,
        UpdateEventSourceOp.isDelete] <;>
      omega

theorem findByArn_eq_none_iff (E : List ExistingEventSource) (a : String) :
    findByArn E a = none ↔ a ∉ E.map ExistingEventSource.eventSourceArn := by
  simp only [findByArn, List.find?_eq_none, List.mem_map, beq_iff_eq, not_exists]
  constructor
  · intro h ex hex
    exact h ex hex.1 hex.2 |>.elim
  · intro h ex hex hEq
    exact h ex ⟨hex, hEq⟩

theorem update_mem_updateEventSourceList (fn : String) {E : List ExistingEventSource}
    {D : List EventSource} {d : EventSource} (hd : d ∈ D) {ex : ExistingEventSource}
    (h : findByArn E d.eventSourceArn = some ex) :
    UpdateEventSourceOp.update fn d.enabled d.batchSize ex.uuid ∈
      updateEventSourceList fn E D := by
  unfold updateEventSourceList
  refine List.mem_append_left _ (List.mem_map.mpr ⟨d, hd, ?_⟩)
  rw [h]

theorem create_mem_updateEventSourceList (fn : String) {E : List ExistingEventSource}
    {D : List EventSource} {d : EventSource} (hd : d ∈ D)
    (h : findByArn E d.eventSourceArn = none) :
    UpdateEventSourceOp.create fn d.eventSourceArn (jsEnabledDefault d.enabled)
      (jsBatchSizeDefault d.batchSize) (jsStartingPositionDefault d.startingPosition) ∈
      updateEventSourceList fn E D := by
  unfold updateEventSourceList
  refine List.mem_append_left _ (List.mem_map.mpr ⟨d, hd, ?_⟩)
  rw [h]

theorem delete_mem_updateEventSourceList (fn : String) {E : List ExistingEventSource}
    {D : List EventSource} {ex : ExistingEventSource} (hex : ex ∈ E)
    (h : ∀ d ∈ D, d.eventSourceArn ≠ ex.eventSourceArn) :
    UpdateEventSourceOp.delete ex.uuid ∈ updateEventSourceList fn E D := by
  unfold updateEventSourceList
  refine List.mem_append_right _ (List.mem_map.mpr ⟨ex, ?_, rfl⟩)
  refine List.mem_filter.mpr ⟨hex, ?_⟩
  rw [Bool.not_eq_true', List.any_eq_false]
  intro d hd
  simpa using h d hd

theorem length_filter_sdiff {α : Type} [DecidableEq α] (A B : List α) (hA : A.Nodup) :
    (A.filter fun a => !(decide (a ∈ B))).length = (A.toFinset \ B.toFinset).card := by
  rw [← List.toFinset_card_of_nodup (hA.filter _)]
  congr 1
  ext a
  simp [List.mem_filter, Finset.mem_sdiff]

theorem length_filter_inter {α : Type} [DecidableEq α] (A B : List α) (hA : A.Nodup) :
    (A.filter fun a => decide (a ∈ B)).length = (A.toFinset ∩ B.toFinset).card := by
  rw [← List.toFinset_card_of_nodup (hA.filter _)]
  congr 1
  ext a
  simp [List.mem_filter, Finset.mem_inter]

theorem findByArn_isSome_mem {E : List ExistingEventSource} {a : String}
    {ex : ExistingEventSource} (h : findByArn E a = some ex) :
    a ∈ E.map ExistingEventSource.eventSourceArn := by
  have hmem := List.mem_of_find?_eq_some h
  have hp := List.find?_some h
  simp only [beq_iff_eq] at hp
  exact List.mem_map.mpr ⟨ex, hmem, hp⟩

theorem any_arn_eq_decide_mem (D : List EventSource) (a : String) :
    (D.any fun es => es.eventSourceArn == a) =
      decide (a ∈ D.map EventSource.eventSourceArn) := by
  by_cases hm : a ∈ D.map EventSource.eventSourceArn
  · obtain ⟨d, hd, hEq⟩ := List.mem_map.mp hm
    rw [decide_eq_true hm, List.any_eq_true]
    exact ⟨d, hd, by simp [hEq]⟩
  · rw [decide_eq_false hm, List.any_eq_false]
    intro d hd
    simp only [beq_iff_eq]
    intro hEq
    exact hm (List.mem_map.mpr ⟨d, hd, hEq⟩)

theorem countP_isCreate_updateEventSourceList (fn : String) (E : List ExistingEventSource)
    (D : List EventSource) :
    (updateEventSourceList fn E D).countP UpdateEventSourceOp.isCreate =
      ((D.map EventSource.eventSourceArn).filter fun a =>
        !(decide (a ∈ E.map ExistingEventSource.eventSourceArn))).length := by
  rw [← List.countP_eq_length_filter, List.countP_map]
  unfold updateEventSourceList
  rw [List.countP_append, List.countP_map, List.countP_map]
  have h2 : List.countP
      (UpdateEventSourceOp.isCreate ∘ fun ex => UpdateEventSourceOp.delete ex.uuid)
      (E.filter fun ex => !(D.any fun es => es.eventSourceArn == ex.eventSourceArn)) = 0 := by
    rw [List.countP_eq_zero]
    intro ex hex
    simp [UpdateEventSourceOp.isCreate]
  rw [h2, Nat.add_zero, List.countP_eq_length_filter, List.countP_eq_length_filter]
  congr 1
  apply List.filter_congr
  intro d hd
  cases hf : findByArn E d.eventSourceArn with
  | none =>
      have hmem := (findByArn_eq_none_iff E d.eventSourceArn).mp hf
      simp [hf, UpdateEventSourceOp.isCreate]
      intro x hx hEq
      exact hmem (List.mem_map.mpr ⟨x, hx, hEq⟩)
  | some ex =>
      have hmem := findByArn_isSome_mem hf
      simp [hf, UpdateEventSourceOp.isCreate]
      obtain ⟨x, hx, hEq⟩ := List.mem_map.mp hmem
      exact ⟨x, hx, hEq⟩

theorem countP_isUpdate_updateEventSourceList (fn : String) (E : List ExistingEventSource)
    (D : List EventSource) :
    (updateEventSourceList fn E D).countP UpdateEventSourceOp.isUpdate =
      ((D.map EventSource.eventSourceArn).filter fun a =>
        decide (a ∈ E.map ExistingEventSource.eventSourceArn)).length := by
  rw [← List.countP_eq_length_filter, List.countP_map]
  unfold updateEventSourceList
  rw [List.countP_append, List.countP_map, List.countP_map]
  have h2 : List.countP
      (UpdateEventSourceOp.isUpdate ∘ fun ex => UpdateEventSourceOp.delete ex.uuid)
      (E.filter fun ex => !(D.any fun es => es.eventSourceArn == ex.eventSourceArn)) = 0 := by
    rw [List.countP_eq_zero]
    intro ex hex
    simp [UpdateEventSourceOp.isUpdate]
  rw [h2, Nat.add_zero, List.countP_eq_length_filter, List.countP_eq_length_filter]
  congr 1
  apply List.filter_congr
  intro d hd
  cases hf : findByArn E d.eventSourceArn with
  | none =>
      have hmem := (findByArn_eq_none_iff E d.eventSourceArn).mp hf
      simp [hf, UpdateEventSourceOp.isUpdate]
      intro x hx hEq
      exact hmem (List.mem_map.mpr ⟨x, hx, hEq⟩)
  | some ex =>
      have hmem := findByArn_isSome_mem hf
      simp [hf, UpdateEventSourceOp.isUpdate]
      obtain ⟨x, hx, hEq⟩ := List.mem_map.mp hmem
      exact ⟨x, hx, hEq⟩

theorem countP_isDelete_updateEventSourceList (fn : String) (E : List ExistingEventSource)
    (D : List EventSource) :
    (updateEventSourceList fn E D).countP UpdateEventSourceOp.isDelete =
      ((E.map ExistingEventSource.eventSourceArn).filter fun a =>
        !(decide (a ∈ D.map EventSource.eventSourceArn))).length := by
  rw [← List.countP_eq_length_filter, List.countP_map]
  unfold updateEventSourceList
  rw [List.countP_append, List.countP_map, List.countP_map]
  have h1 : List.countP
      (UpdateEventSourceOp.isDelete ∘ fun es =>
        match findByArn E es.eventSourceArn with
        | some ex => UpdateEventSourceOp.update fn es.enabled es.batchSize ex.uuid
        | none =>
            UpdateEventSourceOp.create fn es.eventSourceArn (jsEnabledDefault es.enabled)
              (jsBatchSizeDefault es.batchSize) (jsStartingPositionDefault es.startingPosition))
      D = 0 := by
    rw [List.countP_eq_zero]
    intro d hd
    cases hf : findByArn E d.eventSourceArn <;>
      simp [hf, UpdateEventSourceOp.isDelete]
  rw [h1, Nat.zero_add]
  have h3 : List.countP
      (UpdateEventSourceOp.isDelete ∘ fun ex => UpdateEventSourceOp.delete ex.uuid)
      (E.filter fun ex => !(D.any fun es => es.eventSourceArn == ex.eventSourceArn)) =
      (E.filter fun ex => !(D.any fun es => es.eventSourceArn == ex.eventSourceArn)).length := by
    rw [List.countP_eq_length]
    intro ex hex
    simp [UpdateEventSourceOp.isDelete]
  rw [h3, ← List.countP_eq_length_filter]
  congr 1
  funext ex
  simp only [Function.comp_apply]
  rw [any_arn_eq_decide_mem]

theorem mem_keys_zipAdd {z : List (String × String)} {k : String} (n c : String)
    (h : k ∈ z.map Prod.fst) : k ∈ (zipAdd z n c).map Prod.fst := by
  induction z with
  | nil => cases h
  | cons hd rest ih =>
    obtain ⟨m, d⟩ := hd
    simp only [List.map_cons, List.mem_cons] at h
    by_cases hmn : m = n
    · simp only [zipAdd, if_pos hmn, List.map_cons, List.mem_cons]
      rcases h with h | h
      · exact Or.inl h
      · exact Or.inr h
    · simp only [zipAdd, if_neg hmn, List.map_cons, List.mem_cons]
      rcases h with h | h
      · exact Or.inl h
      · exact Or.inr (ih h)

theorem name_mem_keys_zipAdd (z : List (String × String)) (n c : String) :
    n ∈ (zipAdd z n c).map Prod.fst := by
  induction z with
  | nil => simp [zipAdd]
  | cons hd rest ih =>
    obtain ⟨m, d⟩ := hd
    by_cases hmn : m = n
    · simp [zipAdd, if_pos hmn, hmn]
    · simp only [zipAdd, if_neg hmn, List.map_cons, List.mem_cons]
      exact Or.inr ih

theorem mem_keys_zipWalkStep {z : List (String × String)} {k : String} (d : String)
    (f : WalkEntry) (h : k ∈ z.map Prod.fst) : k ∈ (zipWalkStep d z f).map Prod.fst := by
  unfold zipWalkStep
  by_cases hdir : f.isDirectory
  · simpa [hdir] using h
  · simpa [hdir] using mem_keys_zipAdd _ _ h

theorem mem_keys_foldl_zipWalkStep {z : List (String × String)} {k : String} (d : String)
    (F : List WalkEntry) (h : k ∈ z.map Prod.fst) :
    k ∈ (F.foldl (zipWalkStep d) z).map Prod.fst := by
  induction F generalizing z with
  | nil => exact h
  | cons f fs ih => exact ih (mem_keys_zipWalkStep d f h)

theorem file_mem_keys_foldl_zipWalkStep {F : List WalkEntry} {f : WalkEntry}
    (d : String) (z : List (String × String)) (hf : f ∈ F) (hnd : f.isDirectory = false) :
    jsReplaceFirst f.path (d ++ "/") ∈ (F.foldl (zipWalkStep d) z).map Prod.fst := by
  induction F generalizing z with
  | nil => cases hf
  | cons f0 fs ih =>
    rcases List.mem_cons.mp hf with rfl | hmem
    · refine mem_keys_foldl_zipWalkStep d fs ?_
      unfold zipWalkStep
      rw [hnd]
      simpa using name_mem_keys_zipAdd z _ f.content
    · exact ih (zipWalkStep d z f0) hmem

/-! Claim theorems. -/

/-- C10: in the function-update path, `updateFunctionConfiguration` is issued
only after `updateFunctionCode` has completed successfully: a code-update
failure rejects with that error and makes no configuration call; otherwise
the promise settles exactly as the configuration update does (rejecting with
its error, or resolving with its result). -/
theorem claim10_uploadExisting_sequencing (env : UploadEnv) :
    (∀ e, env.updateFunctionCode = .error e →
      Lambda.uploadExisting env = (.error e, [UploadCall.updateFunctionCode])) ∧
    (∀ a, env.updateFunctionCode = .ok a →
      Lambda.uploadExisting env =
        (env.updateFunctionConfiguration,
          [UploadCall.updateFunctionCode, UploadCall.updateFunctionConfiguration])) := by
  constructor
  · intro e he
    unfold Lambda.uploadExisting
    rw [he]
  · intro a ha
    unfold Lambda.uploadExisting
    rw [ha]

/-- Witness for C10 at concrete environments: a failing code update rejects
with that error and never calls the configuration update; a failing
configuration update after a successful code update rejects with the
configuration error. -/
theorem claim10_witness :
    (UploadEnv.mk (.error ("code boom")) (.ok ("cfg"))).updateFunctionCode =
      .error ("code boom") ∧
    Lambda.uploadExisting (UploadEnv.mk (.error ("code boom")) (.ok ("cfg"))) =
      (.error ("code boom"), [UploadCall.updateFunctionCode]) ∧
    (UploadEnv.mk (.ok ("okd")) (.error ("cfg boom"))).updateFunctionCode = .ok ("okd") ∧
    Lambda.uploadExisting (UploadEnv.mk (.ok ("okd")) (.error ("cfg boom"))) =
      (.error ("cfg boom"),
        [UploadCall.updateFunctionCode, UploadCall.updateFunctionConfiguration]) := by
  refine ⟨rfl, (claim10_uploadExisting_sequencing _).1 _ rfl, rfl, ?_⟩
  exact (claim10_uploadExisting_sequencing _).2 ("okd") rfl

/-- C7 counterexample: with no declared path the loader returns both members
`null` (`none`), not empty collections. -/
theorem claim7_counterexample :
    Lambda.eventSourceList none = .ok ⟨none, none⟩ ∧
    Lambda.eventSourceList none ≠
      .ok ⟨some ([] : List EventSource), some ([] : List String)⟩ :=
  ⟨rfl, by decide⟩

/-- C7 as amended: a bare sequence is returned wholesale as event sources
with an empty schedule list; a structured document has each missing
collection defaulted to empty; a declared but unreadable or invalid path
fails with the parse error; and NO declared path yields both members `null`,
which the binding and schedule reconcilers short-circuit into a no-op (no
operations computed or started, empty outcome lists). -/
theorem claim7_loader_normalization (xs : List EventSource)
    (m : Option (List EventSource)) (s : Option (List String)) (e : Err)
    (api : BindingApi) (fn : String) (E : List ExistingEventSource)
    (add : ScheduleParams → Except Err ApiData) (arn : String) :
    Lambda.eventSourceList (some (.ok (.legacyList xs))) = .ok ⟨some xs, some []⟩ ∧
    Lambda.eventSourceList (some (.ok (.document m s))) =
      .ok ⟨some (m.getD []), some (s.getD [])⟩ ∧
    Lambda.eventSourceList (some (.error e)) = .error e ∧
    Lambda.eventSourceList none = .ok ⟨none, none⟩ ∧
    Lambda.updateEventSources api fn E none = .ok [] ∧
    Lambda.updateEventSourcesStarted fn E none = [] ∧
    (Lambda.updateScheduleEvents add arn none).invoked = [] ∧
    (Lambda.updateScheduleEvents add arn none).result = .ok [] :=
  ⟨rfl, rfl, rfl, rfl, rfl, rfl, rfl, rfl⟩

/-- C8 counterexample: the desired binding with ARN `A` and every optional
field unspecified is applied as an UPDATE operation that carries the
unspecified fields through as `undefined` — not as the defaults
`enabled=false`, `batchSize=100` (and an update operation has no starting
position at all). -/
theorem claim8_counterexample :
    updateEventSourceList ("fn") [ExistingEventSource.mk ("A") ("u1")]
      [EventSource.mk ("A") none none none] =
      [UpdateEventSourceOp.update ("fn") none none ("u1")] ∧
    UpdateEventSourceOp.update ("fn") none none ("u1") ≠
      UpdateEventSourceOp.update ("fn") (some false) (some 100) ("u1") :=
  ⟨by decide, by decide⟩

/-- C8 as amended: the defaults `enabled=false`, `batchSize=100`,
`startingPosition=LATEST` are applied only to CREATE operations (desired
bindings whose ARN has no existing match); a desired binding with an existing
match is applied as an UPDATE operation that carries its declared `enabled`
and `batchSize` values through unchanged (unspecified stays unspecified) and
carries no starting position. -/
theorem claim8_defaults_only_on_create (fn : String) (E : List ExistingEventSource)
    (D : List EventSource) (d : EventSource) :
    (d ∈ D → findByArn E d.eventSourceArn = none → d.enabled = none →
      d.batchSize = none → d.startingPosition = none →
      UpdateEventSourceOp.create fn d.eventSourceArn false 100 ("LATEST") ∈
        updateEventSourceList fn E D) ∧
    (∀ ex, d ∈ D → findByArn E d.eventSourceArn = some ex →
      UpdateEventSourceOp.update fn d.enabled d.batchSize ex.uuid ∈
        updateEventSourceList fn E D) := by
  constructor
  · intro hd hf he hb hs
    have hmem := create_mem_updateEventSourceList fn hd hf
    rw [he, hb, hs] at hmem
    simpa [jsEnabledDefault, jsBatchSizeDefault, jsStartingPositionDefault] using hmem
  · intro ex hd hf
    exact update_mem_updateEventSourceList fn hd hf

/-- Witness for C8 at concrete inputs: an unmatched fully-unspecified binding
yields a defaulted CREATE, and a matched binding yields an UPDATE carrying
its declared values and the existing handle. -/
theorem claim8_witness :
    (EventSource.mk ("C") none none none ∈ [EventSource.mk ("C") none none none] ∧
      findByArn [] ("C") = none) ∧
    UpdateEventSourceOp.create ("fn") ("C") false 100 ("LATEST") ∈
      updateEventSourceList ("fn") [] [EventSource.mk ("C") none none none] ∧
    UpdateEventSourceOp.update ("fn") (some true) (some 10) ("u1") ∈
      updateEventSourceList ("fn") [ExistingEventSource.mk ("A") ("u1")]
        [EventSource.mk ("A") (some true) (some 10) none] := by
  refine ⟨⟨by decide, by decide⟩, ?_, ?_⟩
  · exact (claim8_defaults_only_on_create ("fn") []
      [EventSource.mk ("C") none none none] (EventSource.mk ("C") none none none)).1
      (by decide) (by decide) rfl rfl rfl
  · exact (claim8_defaults_only_on_create ("fn") [ExistingEventSource.mk ("A") ("u1")]
      [EventSource.mk ("A") (some true) (some 10) none]
      (EventSource.mk ("A") (some true) (some 10) none)).2
      (ExistingEventSource.mk ("A") ("u1")) (by decide) (by decide)

/-- C4: what `_updateScheduleEvents` actually does at its failing input.  For
every schedule list, every upsert is invoked during the synchronous `map` (so
upsert `i+1` is started without waiting for upsert `i`), and the returned
promise resolves with the full parameter list no matter what any `add` call
settles to, because each `a.then(b)` link receives the promise `b` as a
non-callable handler and ignores it.  In particular, at the concrete input
where the first upsert rejects, the second upsert is still invoked and the
operation still resolves with both parameter sets. -/
theorem claim4_schedule_chain_not_sequential :
    (∀ (add : ScheduleParams → Except Err ApiData) (arn : String) (lst : List String),
      (Lambda.updateScheduleEvents add arn (some lst)).invoked =
        lst.map (fun s => ScheduleParams.mk s arn) ∧
      (Lambda.updateScheduleEvents add arn (some lst)).result =
        .ok (lst.map fun s => ScheduleParams.mk s arn)) ∧
    ((Lambda.updateScheduleEvents
        (fun p => if p.schedule = "s0" then .error ("add failed") else .ok ("done"))
        ("arn:fn") (some [("s0"), ("s1")])).invoked =
      [ScheduleParams.mk ("s0") ("arn:fn"), ScheduleParams.mk ("s1") ("arn:fn")] ∧
     (Lambda.updateScheduleEvents
        (fun p => if p.schedule = "s0" then .error ("add failed") else .ok ("done"))
        ("arn:fn") (some [("s0"), ("s1")])).result =
      .ok [ScheduleParams.mk ("s0") ("arn:fn"), ScheduleParams.mk ("s1") ("arn:fn")] ∧
     (if (ScheduleParams.mk ("s0") ("arn:fn")).schedule = "s0" then
        (.error ("add failed") : Except Err ApiData) else .ok ("done")) =
       .error ("add failed")) := by
  have huniv : ∀ (add : ScheduleParams → Except Err ApiData) (arn : String)
      (lst : List String),
      (Lambda.updateScheduleEvents add arn (some lst)).invoked =
        lst.map (fun s => ScheduleParams.mk s arn) ∧
      (Lambda.updateScheduleEvents add arn (some lst)).result =
        .ok (lst.map fun s => ScheduleParams.mk s arn) := by
    intro add arn lst
    unfold Lambda.updateScheduleEvents
    refine ⟨rfl, ?_⟩
    simp only [foldl_thenNonCallable]
    rfl
  refine ⟨huniv, (huniv _ _ _).1, (huniv _ _ _).2, rfl⟩

/-- C9: the archive builder accumulates across builds.  Every non-directory
file walked by a build is stored under its scratch-relative path, and because
the builder state threads from one build into the next without being
re-created, every entry name present in an earlier build archive is still
present in the archive a later build generates. -/
theorem claim9_zip_shared_accumulation (z0 : List (String × String))
    (d1 d2 : String) (F1 F2 : List WalkEntry) :
    (∀ f ∈ F2, f.isDirectory = false →
      jsReplaceFirst f.path (d2 ++ "/") ∈
        (Lambda.zipBuild d2 (Lambda.zipBuild d1 z0 F1).1 F2).2.map Prod.fst) ∧
    (∀ k ∈ (Lambda.zipBuild d1 z0 F1).2.map Prod.fst,
      k ∈ (Lambda.zipBuild d2 (Lambda.zipBuild d1 z0 F1).1 F2).2.map Prod.fst) := by
  constructor
  · intro f hf hnd
    exact file_mem_keys_foldl_zipWalkStep d2 _ hf hnd
  · intro k hk
    exact mem_keys_foldl_zipWalkStep d2 F2 hk

/-- Witness for C9: with a first build archiving `dir/a.txt` and a second
build archiving `dir/b.txt` from the same process state, the second archive
contains both `b.txt` and the first build entry `a.txt`. -/
theorem claim9_witness :
    (WalkEntry.mk ("dir/b.txt") false ("bb") ∈ [WalkEntry.mk ("dir/b.txt") false ("bb")] ∧
      ("a.txt") ∈ (Lambda.zipBuild ("dir") []
        [WalkEntry.mk ("dir/a.txt") false ("aa")]).2.map Prod.fst) ∧
    jsReplaceFirst ("dir/b.txt") ("dir" ++ "/") ∈
      (Lambda.zipBuild ("dir") (Lambda.zipBuild ("dir") []
        [WalkEntry.mk ("dir/a.txt") false ("aa")]).1
        [WalkEntry.mk ("dir/b.txt") false ("bb")]).2.map Prod.fst ∧
    ("a.txt") ∈
      (Lambda.zipBuild ("dir") (Lambda.zipBuild ("dir") []
        [WalkEntry.mk ("dir/a.txt") false ("aa")]).1
        [WalkEntry.mk ("dir/b.txt") false ("bb")]).2.map Prod.fst := by
  refine ⟨⟨by decide, by decide⟩, ?_, ?_⟩
  · exact (claim9_zip_shared_accumulation [] ("dir") ("dir") _ _).1
      (WalkEntry.mk ("dir/b.txt") false ("bb")) (by decide) rfl
  · exact (claim9_zip_shared_accumulation [] ("dir") ("dir") _ _).2 ("a.txt") (by decide)

theorem countP_not_add {α : Type} (p : α → Bool) (l : List α) :
    l.countP p + l.countP (fun a => !(p a)) = l.length := by
  induction l with
  | nil => simp
  | cons x xs ih => by_cases h : p x <;> simp [List.countP_cons, h] <;> omega

/-- C2: over desired set D and existing set E keyed by `sourceArn`, the diff
produces exactly one operation per partition class: `card (D \ E)` creates,
`card (D ∩ E)` updates carrying forward the matching existing handle,
`card (E \ D)` deletes; every operation is exactly one of the three kinds,
and the first-loop operations biject with the desired bindings, so no binding
falls in two partitions. -/
theorem claim2_diff_partition (fn : String) (D : List EventSource)
    (E : List ExistingEventSource)
    (hD : (D.map EventSource.eventSourceArn).Nodup)
    (hE : (E.map ExistingEventSource.eventSourceArn).Nodup) :
    (updateEventSourceList fn E D).countP UpdateEventSourceOp.isCreate =
      ((D.map EventSource.eventSourceArn).toFinset \
        (E.map ExistingEventSource.eventSourceArn).toFinset).card ∧
    (updateEventSourceList fn E D).countP UpdateEventSourceOp.isUpdate =
      ((D.map EventSource.eventSourceArn).toFinset ∩
        (E.map ExistingEventSource.eventSourceArn).toFinset).card ∧
    (updateEventSourceList fn E D).countP UpdateEventSourceOp.isDelete =
      ((E.map ExistingEventSource.eventSourceArn).toFinset \
        (D.map EventSource.eventSourceArn).toFinset).card ∧
    (updateEventSourceList fn E D).countP UpdateEventSourceOp.isCreate +
      (updateEventSourceList fn E D).countP UpdateEventSourceOp.isUpdate +
      (updateEventSourceList fn E D).countP UpdateEventSourceOp.isDelete =
      (updateEventSourceList fn E D).length ∧
    (updateEventSourceList fn E D).countP UpdateEventSourceOp.isCreate +
      (updateEventSourceList fn E D).countP UpdateEventSourceOp.isUpdate = D.length ∧
    (∀ d ∈ D, ∀ ex, findByArn E d.eventSourceArn = some ex →
      UpdateEventSourceOp.update fn d.enabled d.batchSize ex.uuid ∈
        updateEventSourceList fn E D) ∧
    (∀ d ∈ D, findByArn E d.eventSourceArn = none →
      UpdateEventSourceOp.create fn d.eventSourceArn (jsEnabledDefault d.enabled)
        (jsBatchSizeDefault d.batchSize) (jsStartingPositionDefault d.startingPosition) ∈
        updateEventSourceList fn E D) ∧
    (∀ ex ∈ E, (∀ d ∈ D, d.eventSourceArn ≠ ex.eventSourceArn) →
      UpdateEventSourceOp.delete ex.uuid ∈ updateEventSourceList fn E D) := by
  refine ⟨?_, ?_, ?_, countP_ops_partition _, ?_, ?_, ?_, ?_⟩
  · rw [countP_isCreate_updateEventSourceList, length_filter_sdiff _ _ hD]
  · rw [countP_isUpdate_updateEventSourceList, length_filter_inter _ _ hD]
  · rw [countP_isDelete_updateEventSourceList, length_filter_sdiff _ _ hE]
  · rw [countP_isCreate_updateEventSourceList, countP_isUpdate_updateEventSourceList,
      ← List.countP_eq_length_filter, ← List.countP_eq_length_filter]
    have h := countP_not_add
      (fun a => decide (a ∈ E.map ExistingEventSource.eventSourceArn))
      (D.map EventSource.eventSourceArn)
    rw [List.length_map] at h
    omega
  · intro d hd ex hf
    exact update_mem_updateEventSourceList fn hd hf
  · intro d hd hf
    exact create_mem_updateEventSourceList fn hd hf
  · intro ex hex h
    exact delete_mem_updateEventSourceList fn hex h

/-- Witness for C2 at the concrete scenario of the specification: desired
`[A]` against existing `[A(u1), B(u2)]` yields zero creates, one update
carrying `u1`, one delete of `u2`, and the partition counts add up. -/
theorem claim2_witness :
    ((([EventSource.mk ("A") (some true) (some 10) none]).map
        EventSource.eventSourceArn).Nodup ∧
      (([ExistingEventSource.mk ("A") ("u1"), ExistingEventSource.mk ("B") ("u2")]).map
        ExistingEventSource.eventSourceArn).Nodup) ∧
    (updateEventSourceList ("f")
        [ExistingEventSource.mk ("A") ("u1"), ExistingEventSource.mk ("B") ("u2")]
        [EventSource.mk ("A") (some true) (some 10) none]).countP
      UpdateEventSourceOp.isCreate =
      ((([EventSource.mk ("A") (some true) (some 10) none]).map
          EventSource.eventSourceArn).toFinset \
        (([ExistingEventSource.mk ("A") ("u1"), ExistingEventSource.mk ("B") ("u2")]).map
          ExistingEventSource.eventSourceArn).toFinset).card ∧
    (updateEventSourceList ("f")
        [ExistingEventSource.mk ("A") ("u1"), ExistingEventSource.mk ("B") ("u2")]
        [EventSource.mk ("A") (some true) (some 10) none]).countP
      UpdateEventSourceOp.isUpdate =
      ((([EventSource.mk ("A") (some true) (some 10) none]).map
          EventSource.eventSourceArn).toFinset ∩
        (([ExistingEventSource.mk ("A") ("u1"), ExistingEventSource.mk ("B") ("u2")]).map
          ExistingEventSource.eventSourceArn).toFinset).card ∧
    UpdateEventSourceOp.update ("f") (some true) (some 10) ("u1") ∈
      updateEventSourceList ("f")
        [ExistingEventSource.mk ("A") ("u1"), ExistingEventSource.mk ("B") ("u2")]
        [EventSource.mk ("A") (some true) (some 10) none] ∧
    UpdateEventSourceOp.delete ("u2") ∈
      updateEventSourceList ("f")
        [ExistingEventSource.mk ("A") ("u1"), ExistingEventSource.mk ("B") ("u2")]
        [EventSource.mk ("A") (some true) (some 10) none] := by
  have h := claim2_diff_partition ("f")
    [EventSource.mk ("A") (some true) (some 10) none]
    [ExistingEventSource.mk ("A") ("u1"), ExistingEventSource.mk ("B") ("u2")]
    (by decide) (by decide)
  refine ⟨⟨by decide, by decide⟩, h.1, h.2.1, ?_, ?_⟩
  · exact h.2.2.2.2.2.1 (EventSource.mk ("A") (some true) (some 10) none) (by decide)
      (ExistingEventSource.mk ("A") ("u1")) (by decide)
  · exact h.2.2.2.2.2.2.2 (ExistingEventSource.mk ("B") ("u2")) (by decide) (by decide)

theorem updateScheduleEvents_result_eq (add : ScheduleParams → Except Err ApiData)
    (arn : String) (sl : Option (List String)) :
    (Lambda.updateScheduleEvents add arn sl).result =
      .ok ((Lambda.updateScheduleEvents add arn sl).invoked) := by
  cases sl with
  | none => rfl
  | some lst =>
    unfold Lambda.updateScheduleEvents
    simp only [foldl_thenNonCallable]
    rfl

/-- C3 as amended: the binding operations are all started by one synchronous
`map` with no ordering between them, and on all-success one outcome per
operation is collected in declared order (outcome `i` is exactly the settled
value of operation `i`); but a single operation failure rejects the whole
binding application with that operation error, and in `_deployToRegion`
that rejection escalates to a region-level failure instead of staying
isolated to its own outcome. -/
theorem claim3_binding_application (api : BindingApi) (fn : String)
    (E : List ExistingEventSource) (lst : List EventSource) :
    (Lambda.updateEventSourcesStarted fn E (some lst) = updateEventSourceList fn E lst) ∧
    (∀ v, Lambda.updateEventSources api fn E (some lst) = .ok v →
      (updateEventSourceList fn E lst).map (execBindingOp api) = v.map Except.ok ∧
      v.length = (updateEventSourceList fn E lst).length) ∧
    (∀ l1 l2 op e, updateEventSourceList fn E lst = l1 ++ op :: l2 →
      execBindingOp api op = .error e →
      (∀ op2 ∈ l1, ∃ a, execBindingOp api op2 = .ok a) →
      Lambda.updateEventSources api fn E (some lst) = .error e) ∧
    (∀ (env : RegionEnv) (esl : EventSourceListResult) (a : ApiData) (e : Err),
      env.getFunction = .ok a →
      env.listEventSourceMappings = .ok E →
      env.bindings = api →
      esl.eventSourceMappings = some lst →
      Lambda.updateEventSources api fn E (some lst) = .error e →
      ∃ e2, (Lambda.deployToRegion env fn esl).1 = .error e2) := by
  refine ⟨rfl, ?_, ?_, ?_⟩
  · intro v hv
    have hmap := (promiseAll_eq_ok _ v).mp hv
    refine ⟨hmap, ?_⟩
    have := congrArg List.length hmap
    simpa using this.symm
  · intro l1 l2 op e hops hop h1
    show promiseAll ((updateEventSourceList fn E lst).map (execBindingOp api)) = .error e
    rw [hops, List.map_append, List.map_cons, hop]
    exact promiseAll_append_error _ _ e (by
      intro x hx
      obtain ⟨op2, hop2, rfl⟩ := List.mem_map.mp hx
      exact h1 op2 hop2)
  · intro env esl a e hgf hlm hapi hesl hbind
    simp only [Lambda.deployToRegion, hgf, hlm]
    cases hu : (Lambda.uploadExisting env.upload).1 with
    | error e2 =>
      refine ⟨e2, ?_⟩
      simp [hu, promiseAll2, Except.map]
    | ok arn =>
      refine ⟨e, ?_⟩
      simp only [hu, updateScheduleEvents_result_eq, hapi, hesl, hbind]
      simp [promiseAll2, Except.map]

/-- C3 counterexample: with one desired binding whose CREATE call rejects,
the binding application rejects outright instead of collecting one outcome
per operation, and the whole region rejects with the same binding-level
error. -/
theorem claim3_counterexample :
    Lambda.updateEventSources
      (BindingApi.mk (fun _ _ _ _ _ => .error ("boom")) (fun _ _ _ _ => .ok ("u"))
        (fun _ => .ok ("d")))
      ("f") [] (some [EventSource.mk ("A") none none none]) = .error ("boom") ∧
    (Lambda.deployToRegion
      (RegionEnv.mk (.ok ("fn-exists")) (.ok ("arn-new")) (.ok [])
        (UploadEnv.mk (.ok ("code")) (.ok ("cfg")))
        (BindingApi.mk (fun _ _ _ _ _ => .error ("boom")) (fun _ _ _ _ => .ok ("u"))
          (fun _ => .ok ("d")))
        (fun _ => .ok ("sch")))
      ("f")
      (EventSourceListResult.mk (some [EventSource.mk ("A") none none none])
        (some []))).1 = .error ("boom") :=
  ⟨rfl, rfl⟩

/-- Witness for C3 at concrete inputs: an all-success application collects
one outcome per operation in order; a failing operation rejects the whole
application; and with a live region environment the same failure rejects the
region. -/
theorem claim3_witness :
    ((updateEventSourceList ("f") [] [EventSource.mk ("A") none none none]).map
      (execBindingOp (BindingApi.mk (fun _ _ _ _ _ => .ok ("made")) (fun _ _ _ _ => .ok ("u"))
        (fun _ => .ok ("d")))) = [("made")].map Except.ok) ∧
    Lambda.updateEventSources
      (BindingApi.mk (fun _ _ _ _ _ => .error ("boom")) (fun _ _ _ _ => .ok ("u"))
        (fun _ => .ok ("d")))
      ("f") [] (some [EventSource.mk ("A") none none none]) = .error ("boom") ∧
    (∃ e2, (Lambda.deployToRegion
      (RegionEnv.mk (.ok ("fn-exists")) (.ok ("arn-new")) (.ok [])
        (UploadEnv.mk (.ok ("code")) (.ok ("cfg")))
        (BindingApi.mk (fun _ _ _ _ _ => .error ("boom")) (fun _ _ _ _ => .ok ("u"))
          (fun _ => .ok ("d")))
        (fun _ => .ok ("sch")))
      ("f")
      (EventSourceListResult.mk (some [EventSource.mk ("A") none none none])
        (some []))).1 = .error e2) := by
  refine ⟨?_, ?_, ?_⟩
  · exact ((claim3_binding_application
      (BindingApi.mk (fun _ _ _ _ _ => .ok ("made")) (fun _ _ _ _ => .ok ("u"))
        (fun _ => .ok ("d"))) ("f") [] [EventSource.mk ("A") none none none]).2.1
      [("made")] rfl).1
  · exact (claim3_binding_application
      (BindingApi.mk (fun _ _ _ _ _ => .error ("boom")) (fun _ _ _ _ => .ok ("u"))
        (fun _ => .ok ("d"))) ("f") [] [EventSource.mk ("A") none none none]).2.2.1
      [] [] (UpdateEventSourceOp.create ("f") ("A") false 100 ("LATEST")) ("boom")
      rfl rfl (by intro x hx; cases hx)
  · exact (claim3_binding_application
      (BindingApi.mk (fun _ _ _ _ _ => .error ("boom")) (fun _ _ _ _ => .ok ("u"))
        (fun _ => .ok ("d"))) ("f") [] [EventSource.mk ("A") none none none]).2.2.2
      (RegionEnv.mk (.ok ("fn-exists")) (.ok ("arn-new")) (.ok [])
        (UploadEnv.mk (.ok ("code")) (.ok ("cfg")))
        (BindingApi.mk (fun _ _ _ _ _ => .error ("boom")) (fun _ _ _ _ => .ok ("u"))
          (fun _ => .ok ("d")))
        (fun _ => .ok ("sch")))
      (EventSourceListResult.mk (some [EventSource.mk ("A") none none none]) (some []))
      ("fn-exists") ("boom") rfl rfl rfl rfl rfl

/-- C5 as amended: the probe outcome is binary — ANY probe error (missing
function or hard failure alike) takes the Create path, and probe success
takes the Update path.  On the Create path a create failure fails the whole
region with that error and no binding or schedule work is started.  On the
Update path a listing failure fails the region the same way; a failure of
the function-update code step fails the region, but the event-source binding
operations have already been started concurrently with the function update —
only the schedule work (and the configuration call) is withheld. -/
theorem claim5_region_paths (env : RegionEnv) (fn : String)
    (esl : EventSourceListResult) :
    (∀ e, env.getFunction = .error e →
      RegionCall.createFunction ∈ (Lambda.deployToRegion env fn esl).2) ∧
    (∀ e e2, env.getFunction = .error e → env.createFunction = .error e2 →
      Lambda.deployToRegion env fn esl =
        (.error e2, [RegionCall.getFunction, RegionCall.createFunction])) ∧
    (∀ a e, env.getFunction = .ok a → env.listEventSourceMappings = .error e →
      Lambda.deployToRegion env fn esl =
        (.error e, [RegionCall.getFunction, RegionCall.listEventSourceMappings])) ∧
    (∀ a E e, env.getFunction = .ok a → env.listEventSourceMappings = .ok E →
      env.upload.updateFunctionCode = .error e →
      (Lambda.deployToRegion env fn esl).1 = .error e ∧
      (∀ op ∈ Lambda.updateEventSourcesStarted fn E esl.eventSourceMappings,
        RegionCall.bindingOp op ∈ (Lambda.deployToRegion env fn esl).2) ∧
      (∀ p : ScheduleParams,
        RegionCall.scheduleAdd p ∉ (Lambda.deployToRegion env fn esl).2) ∧
      RegionCall.updateFunctionConfiguration ∉ (Lambda.deployToRegion env fn esl).2) := by
  refine ⟨?_, ?_, ?_, ?_⟩
  · intro e he
    simp only [Lambda.deployToRegion, he]
    cases hc : env.createFunction with
    | error e2 => simp
    | ok arn => simp
  · intro e e2 he hc
    simp only [Lambda.deployToRegion, he, hc]
  · intro a e ha he
    simp only [Lambda.deployToRegion, ha, he]
  · intro a E e ha hE hcode
    have hup : Lambda.uploadExisting env.upload =
        (.error e, [UploadCall.updateFunctionCode]) := by
      unfold Lambda.uploadExisting
      rw [hcode]
    refine ⟨?_, ?_, ?_, ?_⟩
    · simp only [Lambda.deployToRegion, ha, hE, hup]
      simp [promiseAll2, Except.map]
    · intro op hop
      simp only [Lambda.deployToRegion, ha, hE, hup]
      exact List.mem_append_left _ (List.mem_append_right _ (List.mem_map_of_mem _ hop))
    · intro p
      simp only [Lambda.deployToRegion, ha, hE, hup]
      simp [UploadCall.toRegionCall]
    · simp only [Lambda.deployToRegion, ha, hE, hup]
      simp [UploadCall.toRegionCall]

/-- C5 counterexample: a hard probe failure (an access error, not a missing
function) does not fail the region — the Create path runs and the region
succeeds; and when the function-update code step fails, the region does fail
but event-source binding work for it was still started. -/
theorem claim5_counterexample :
    (Lambda.deployToRegion
      (RegionEnv.mk (.error ("AccessDenied")) (.ok ("arn-new")) (.ok [])
        (UploadEnv.mk (.ok ("code")) (.ok ("cfg")))
        (BindingApi.mk (fun _ _ _ _ _ => .ok ("c")) (fun _ _ _ _ => .ok ("u"))
          (fun _ => .ok ("d")))
        (fun _ => .ok ("sch")))
      ("f") (EventSourceListResult.mk (some []) (some []))).1 =
      .ok (RegionValue.created [] []) ∧
    (Lambda.deployToRegion
      (RegionEnv.mk (.ok ("fn-exists")) (.ok ("arn-new")) (.ok [])
        (UploadEnv.mk (.error ("codefail")) (.ok ("cfg")))
        (BindingApi.mk (fun _ _ _ _ _ => .ok ("c")) (fun _ _ _ _ => .ok ("u"))
          (fun _ => .ok ("d")))
        (fun _ => .ok ("sch")))
      ("f")
      (EventSourceListResult.mk (some [EventSource.mk ("A") none none none])
        (some []))).1 = .error ("codefail") ∧
    RegionCall.bindingOp (UpdateEventSourceOp.create ("f") ("A") false 100 ("LATEST")) ∈
      (Lambda.deployToRegion
        (RegionEnv.mk (.ok ("fn-exists")) (.ok ("arn-new")) (.ok [])
          (UploadEnv.mk (.error ("codefail")) (.ok ("cfg")))
          (BindingApi.mk (fun _ _ _ _ _ => .ok ("c")) (fun _ _ _ _ => .ok ("u"))
            (fun _ => .ok ("d")))
          (fun _ => .ok ("sch")))
        ("f")
        (EventSourceListResult.mk (some [EventSource.mk ("A") none none none])
          (some []))).2 := by
  refine ⟨rfl, rfl, ?_⟩
  decide

/-- Witness for C5 at concrete environments: a probe error leads to a create
attempt; a create failure yields exactly the probe-and-create trace with the
create error; an update-path code failure fails the region while its binding
operation was started. -/
theorem claim5_witness :
    RegionCall.createFunction ∈
      (Lambda.deployToRegion
        (RegionEnv.mk (.error ("AccessDenied")) (.error ("createboom")) (.ok [])
          (UploadEnv.mk (.ok ("code")) (.ok ("cfg")))
          (BindingApi.mk (fun _ _ _ _ _ => .ok ("c")) (fun _ _ _ _ => .ok ("u"))
            (fun _ => .ok ("d")))
          (fun _ => .ok ("sch")))
        ("f") (EventSourceListResult.mk (some []) (some []))).2 ∧
    Lambda.deployToRegion
      (RegionEnv.mk (.error ("AccessDenied")) (.error ("createboom")) (.ok [])
        (UploadEnv.mk (.ok ("code")) (.ok ("cfg")))
        (BindingApi.mk (fun _ _ _ _ _ => .ok ("c")) (fun _ _ _ _ => .ok ("u"))
          (fun _ => .ok ("d")))
        (fun _ => .ok ("sch")))
      ("f") (EventSourceListResult.mk (some []) (some [])) =
      (.error ("createboom"), [RegionCall.getFunction, RegionCall.createFunction]) ∧
    (Lambda.deployToRegion
      (RegionEnv.mk (.ok ("fn-exists")) (.ok ("arn-new")) (.ok [])
        (UploadEnv.mk (.error ("codefail")) (.ok ("cfg")))
        (BindingApi.mk (fun _ _ _ _ _ => .ok ("c")) (fun _ _ _ _ => .ok ("u"))
          (fun _ => .ok ("d")))
        (fun _ => .ok ("sch")))
      ("f")
      (EventSourceListResult.mk (some [EventSource.mk ("A") none none none])
        (some []))).1 = .error ("codefail") := by
  refine ⟨?_, ?_, ?_⟩
  · exact (claim5_region_paths
      (RegionEnv.mk (.error ("AccessDenied")) (.error ("createboom")) (.ok [])
        (UploadEnv.mk (.ok ("code")) (.ok ("cfg")))
        (BindingApi.mk (fun _ _ _ _ _ => .ok ("c")) (fun _ _ _ _ => .ok ("u"))
          (fun _ => .ok ("d")))
        (fun _ => .ok ("sch")))
      ("f") (EventSourceListResult.mk (some []) (some []))).1 ("AccessDenied") rfl
  · exact (claim5_region_paths
      (RegionEnv.mk (.error ("AccessDenied")) (.error ("createboom")) (.ok [])
        (UploadEnv.mk (.ok ("code")) (.ok ("cfg")))
        (BindingApi.mk (fun _ _ _ _ _ => .ok ("c")) (fun _ _ _ _ => .ok ("u"))
          (fun _ => .ok ("d")))
        (fun _ => .ok ("sch")))
      ("f") (EventSourceListResult.mk (some []) (some []))).2.1
      ("AccessDenied") ("createboom") rfl rfl
  · exact ((claim5_region_paths
      (RegionEnv.mk (.ok ("fn-exists")) (.ok ("arn-new")) (.ok [])
        (UploadEnv.mk (.error ("codefail")) (.ok ("cfg")))
        (BindingApi.mk (fun _ _ _ _ _ => .ok ("c")) (fun _ _ _ _ => .ok ("u"))
          (fun _ => .ok ("d")))
        (fun _ => .ok ("sch")))
      ("f")
      (EventSourceListResult.mk (some [EventSource.mk ("A") none none none])
        (some []))).2.2.2 ("fn-exists") [] ("codefail") rfl rfl rfl).1

/-- C6 as amended: only the local `run` entry validates the runtime — its
first statement rejects any identifier outside the allow-list with exit code
254 before anything else happens, and lets allow-listed identifiers proceed;
the `deploy` entry performs no runtime validation at all: its outcome and
call trace are identical for any two runtime values, so an invalid runtime
is never rejected before the remote calls. -/
theorem claim6_runtime_validation (program : Program) (env : DeployEnv)
    (rt1 rt2 : String) :
    (program.runtime ∉ allowedRuntimes → Lambda.run program = .exited 254) ∧
    (program.runtime ∈ allowedRuntimes → Lambda.run program = .proceeded) ∧
    (Lambda.deploy env (Program.mk rt1 program.region program.functionName
        program.environment program.lambdaVersion) =
      Lambda.deploy env (Program.mk rt2 program.region program.functionName
        program.environment program.lambdaVersion)) := by
  refine ⟨?_, ?_, rfl⟩
  · intro h
    unfold Lambda.run
    rw [if_neg (fun hc => h (List.elem_iff.mp hc))]
  · intro h
    unfold Lambda.run
    rw [if_pos (List.elem_iff.mpr h)]

/-- C6 counterexample: a deploy whose runtime identifier is not in the
allow-list is not rejected — the remote probe call is made and the whole
deploy completes. -/
theorem claim6_counterexample :
    ("python2.7") ∉ allowedRuntimes ∧
    (("r1"), RegionCall.getFunction) ∈
      (Lambda.deploy
        (DeployEnv.mk (.ok ("zip"))
          (fun _ =>
            RegionEnv.mk (.error ("nf")) (.ok ("arn")) (.ok [])
              (UploadEnv.mk (.ok ("c")) (.ok ("cfg")))
              (BindingApi.mk (fun _ _ _ _ _ => .ok ("c")) (fun _ _ _ _ => .ok ("u"))
                (fun _ => .ok ("d")))
              (fun _ => .ok ("s")))
          none)
        (Program.mk ("python2.7") ("r1") ("fn") none none)).2 ∧
    (Lambda.deploy
      (DeployEnv.mk (.ok ("zip"))
        (fun _ =>
          RegionEnv.mk (.error ("nf")) (.ok ("arn")) (.ok [])
            (UploadEnv.mk (.ok ("c")) (.ok ("cfg")))
            (BindingApi.mk (fun _ _ _ _ _ => .ok ("c")) (fun _ _ _ _ => .ok ("u"))
              (fun _ => .ok ("d")))
            (fun _ => .ok ("s")))
        none)
      (Program.mk ("python2.7") ("r1") ("fn") none none)).1 =
      .results [RegionValue.created [] []] := by
  refine ⟨by decide, by decide, rfl⟩

/-- Witness for C6: an unsupported runtime makes `run` exit with code 254, a
supported one proceeds, and `deploy` behaves identically under a supported
and an unsupported runtime. -/
theorem claim6_witness :
    (("python2.7") ∉ allowedRuntimes ∧
      Lambda.run (Program.mk ("python2.7") ("r1") ("fn") none none) =
        .exited 254) ∧
    (("nodejs6.10") ∈ allowedRuntimes ∧
      Lambda.run (Program.mk ("nodejs6.10") ("r1") ("fn") none none) = .proceeded) ∧
    Lambda.deploy
        (DeployEnv.mk (.error ("no zip")) (fun _ =>
          RegionEnv.mk (.error ("nf")) (.ok ("arn")) (.ok [])
            (UploadEnv.mk (.ok ("c")) (.ok ("cfg")))
            (BindingApi.mk (fun _ _ _ _ _ => .ok ("c")) (fun _ _ _ _ => .ok ("u"))
              (fun _ => .ok ("d")))
            (fun _ => .ok ("s"))) none)
        (Program.mk ("python2.7") ("r1") ("fn") none none) =
      Lambda.deploy
        (DeployEnv.mk (.error ("no zip")) (fun _ =>
          RegionEnv.mk (.error ("nf")) (.ok ("arn")) (.ok [])
            (UploadEnv.mk (.ok ("c")) (.ok ("cfg")))
            (BindingApi.mk (fun _ _ _ _ _ => .ok ("c")) (fun _ _ _ _ => .ok ("u"))
              (fun _ => .ok ("d")))
            (fun _ => .ok ("s"))) none)
        (Program.mk ("nodejs6.10") ("r1") ("fn") none none) := by
  refine ⟨⟨by decide, ?_⟩, ⟨by decide, ?_⟩, ?_⟩
  · exact (claim6_runtime_validation (Program.mk ("python2.7") ("r1") ("fn") none none)
      (DeployEnv.mk (.error ("no zip")) (fun _ =>
        RegionEnv.mk (.error ("nf")) (.ok ("arn")) (.ok [])
          (UploadEnv.mk (.ok ("c")) (.ok ("cfg")))
          (BindingApi.mk (fun _ _ _ _ _ => .ok ("c")) (fun _ _ _ _ => .ok ("u"))
            (fun _ => .ok ("d")))
          (fun _ => .ok ("s"))) none)
      ("python2.7") ("nodejs6.10")).1 (by decide)
  · exact (claim6_runtime_validation (Program.mk ("nodejs6.10") ("r1") ("fn") none none)
      (DeployEnv.mk (.error ("no zip")) (fun _ =>
        RegionEnv.mk (.error ("nf")) (.ok ("arn")) (.ok [])
          (UploadEnv.mk (.ok ("c")) (.ok ("cfg")))
          (BindingApi.mk (fun _ _ _ _ _ => .ok ("c")) (fun _ _ _ _ => .ok ("u"))
            (fun _ => .ok ("d")))
          (fun _ => .ok ("s"))) none)
      ("python2.7") ("nodejs6.10")).2.1 (by decide)
  · exact (claim6_runtime_validation (Program.mk ("python2.7") ("r1") ("fn") none none)
      (DeployEnv.mk (.error ("no zip")) (fun _ =>
        RegionEnv.mk (.error ("nf")) (.ok ("arn")) (.ok [])
          (UploadEnv.mk (.ok ("c")) (.ok ("cfg")))
          (BindingApi.mk (fun _ _ _ _ _ => .ok ("c")) (fun _ _ _ _ => .ok ("u"))
            (fun _ => .ok ("d")))
          (fun _ => .ok ("s"))) none)
      ("python2.7") ("nodejs6.10")).2.2

theorem deploy_trace_eq (env : DeployEnv) (program : Program) (b : String)
    (esl : EventSourceListResult) (ha : env.archive = .ok b)
    (hl : Lambda.eventSourceList env.eventSourceFile = .ok esl) :
    (Lambda.deploy env program).2 =
      ((Lambda.deployRegionList program).map fun r =>
        (r, Lambda.deployToRegion (env.regionEnv r) (paramsFunctionName program) esl)).flatMap
        fun rp => rp.2.2.map fun c => (rp.1, c) := by
  simp only [Lambda.deploy, ha, hl]
  cases promiseAll (((Lambda.deployRegionList program).map fun r =>
      (r, Lambda.deployToRegion (env.regionEnv r) (paramsFunctionName program) esl)).map
      fun rp => rp.2.1) <;> rfl

/-- C1 as amended: `deploy` starts one reconciliation per region and combines
them with all-or-error semantics.  When every region resolves, the outcome
carries one region value per region in declared order.  When some region
rejects (the regions before it in list order having resolved), the whole
aggregate collapses to that single logged error and the results of the
other regions are discarded — no per-region result set carrying the error is
produced.  No region is blocked or rolled back by another: the started calls
of every region appear in the deploy trace unconditionally. -/
theorem claim1_deploy_aggregation (env : DeployEnv) (program : Program)
    (b : String) (esl : EventSourceListResult) (v : String → RegionValue) (e : Err)
    (pre rest : List String) (rk : String) :
    (env.archive = .ok b → Lambda.eventSourceList env.eventSourceFile = .ok esl →
      (∀ r ∈ Lambda.deployRegionList program,
        (Lambda.deployToRegion (env.regionEnv r) (paramsFunctionName program) esl).1 =
          .ok (v r)) →
      (Lambda.deploy env program).1 =
        .results ((Lambda.deployRegionList program).map v)) ∧
    (env.archive = .ok b → Lambda.eventSourceList env.eventSourceFile = .ok esl →
      Lambda.deployRegionList program = pre ++ rk :: rest →
      (∀ r ∈ pre, ∃ w,
        (Lambda.deployToRegion (env.regionEnv r) (paramsFunctionName program) esl).1 =
          .ok w) →
      (Lambda.deployToRegion (env.regionEnv rk) (paramsFunctionName program) esl).1 =
        .error e →
      (Lambda.deploy env program).1 = .loggedError e) ∧
    (env.archive = .ok b → Lambda.eventSourceList env.eventSourceFile = .ok esl →
      ∀ r ∈ Lambda.deployRegionList program,
        ∀ c ∈ (Lambda.deployToRegion (env.regionEnv r) (paramsFunctionName program) esl).2,
          (r, c) ∈ (Lambda.deploy env program).2) := by
  refine ⟨?_, ?_, ?_⟩
  · intro ha hl hall
    simp only [Lambda.deploy, ha, hl]
    have hmap : ((Lambda.deployRegionList program).map fun r =>
        (r, Lambda.deployToRegion (env.regionEnv r) (paramsFunctionName program) esl)).map
        (fun rp => rp.2.1) =
        (Lambda.deployRegionList program).map fun r => Except.ok (v r) := by
      rw [List.map_map]
      exact List.map_congr_left fun r hr => hall r hr
    rw [hmap, promiseAll_map_ok]
  · intro ha hl hreg hpre hrk
    simp only [Lambda.deploy, ha, hl]
    have hmap : ((Lambda.deployRegionList program).map fun r =>
        (r, Lambda.deployToRegion (env.regionEnv r) (paramsFunctionName program) esl)).map
        (fun rp => rp.2.1) =
        (pre.map fun r =>
          (Lambda.deployToRegion (env.regionEnv r) (paramsFunctionName program) esl).1) ++
        Except.error e ::
        (rest.map fun r =>
          (Lambda.deployToRegion (env.regionEnv r) (paramsFunctionName program) esl).1) := by
      rw [List.map_map, hreg, List.map_append, List.map_cons]
      simp only [Function.comp_def]
      rw [hrk]
    have hperr := promiseAll_append_error
      (pre.map fun r =>
        (Lambda.deployToRegion (env.regionEnv r) (paramsFunctionName program) esl).1)
      (rest.map fun r =>
        (Lambda.deployToRegion (env.regionEnv r) (paramsFunctionName program) esl).1)
      e (by
        intro x hx
        obtain ⟨r, hrmem, rfl⟩ := List.mem_map.mp hx
        exact hpre r hrmem)
    rw [hmap, hperr]
  · intro ha hl r hr c hc
    rw [deploy_trace_eq env program b esl ha hl]
    exact List.mem_flatMap.mpr
      ⟨(r, Lambda.deployToRegion (env.regionEnv r) (paramsFunctionName program) esl),
        List.mem_map_of_mem _ hr, List.mem_map_of_mem _ hc⟩

/-- C1 counterexample: with regions `r1,r2` where `r1` fails at its create
step and `r2` reconciles successfully, the aggregated outcome is a single
logged error — not a set of one Region Result per region — even though the
second region did run to completion (its create call is in the trace and its
own reconciliation resolved). -/
theorem claim1_counterexample :
    (Lambda.deploy
      (DeployEnv.mk (.ok ("zip"))
        (fun r => if r = "r1" then
          RegionEnv.mk (.error ("nf")) (.error ("dead1")) (.ok [])
            (UploadEnv.mk (.ok ("c")) (.ok ("cfg")))
            (BindingApi.mk (fun _ _ _ _ _ => .ok ("c")) (fun _ _ _ _ => .ok ("u"))
              (fun _ => .ok ("d")))
            (fun _ => .ok ("s"))
        else
          RegionEnv.mk (.error ("nf")) (.ok ("arn")) (.ok [])
            (UploadEnv.mk (.ok ("c")) (.ok ("cfg")))
            (BindingApi.mk (fun _ _ _ _ _ => .ok ("c")) (fun _ _ _ _ => .ok ("u"))
              (fun _ => .ok ("d")))
            (fun _ => .ok ("s")))
        none)
      (Program.mk ("nodejs6.10") ("r1,r2") ("fn") none none)).1 =
      .loggedError ("dead1") ∧
    (Lambda.deployToRegion
      (RegionEnv.mk (.error ("nf")) (.ok ("arn")) (.ok [])
        (UploadEnv.mk (.ok ("c")) (.ok ("cfg")))
        (BindingApi.mk (fun _ _ _ _ _ => .ok ("c")) (fun _ _ _ _ => .ok ("u"))
          (fun _ => .ok ("d")))
        (fun _ => .ok ("s")))
      (paramsFunctionName (Program.mk ("nodejs6.10") ("r1,r2") ("fn") none none))
      (EventSourceListResult.mk none none)).1 = .ok (RegionValue.created [] []) ∧
    (("r2"), RegionCall.createFunction) ∈
      (Lambda.deploy
        (DeployEnv.mk (.ok ("zip"))
          (fun r => if r = "r1" then
            RegionEnv.mk (.error ("nf")) (.error ("dead1")) (.ok [])
              (UploadEnv.mk (.ok ("c")) (.ok ("cfg")))
              (BindingApi.mk (fun _ _ _ _ _ => .ok ("c")) (fun _ _ _ _ => .ok ("u"))
                (fun _ => .ok ("d")))
              (fun _ => .ok ("s"))
          else
            RegionEnv.mk (.error ("nf")) (.ok ("arn")) (.ok [])
              (UploadEnv.mk (.ok ("c")) (.ok ("cfg")))
              (BindingApi.mk (fun _ _ _ _ _ => .ok ("c")) (fun _ _ _ _ => .ok ("u"))
                (fun _ => .ok ("d")))
              (fun _ => .ok ("s")))
          none)
        (Program.mk ("nodejs6.10") ("r1,r2") ("fn") none none)).2 := by
  refine ⟨rfl, rfl, ?_⟩
  decide

/-- Witness for C1: with the same two regions all succeeding, deploy resolves
with one region value per region; with region `r1` failing at create, deploy
collapses to the logged error while region `r2` calls still appear in the
trace. -/
theorem claim1_witness :
    (Lambda.deploy
      (DeployEnv.mk (.ok ("zip"))
        (fun _ =>
          RegionEnv.mk (.error ("nf")) (.ok ("arn")) (.ok [])
            (UploadEnv.mk (.ok ("c")) (.ok ("cfg")))
            (BindingApi.mk (fun _ _ _ _ _ => .ok ("c")) (fun _ _ _ _ => .ok ("u"))
              (fun _ => .ok ("d")))
            (fun _ => .ok ("s")))
        none)
      (Program.mk ("nodejs6.10") ("r1,r2") ("fn") none none)).1 =
      .results ((Lambda.deployRegionList
        (Program.mk ("nodejs6.10") ("r1,r2") ("fn") none none)).map
        (fun _ => RegionValue.created [] [])) ∧
    (Lambda.deploy
      (DeployEnv.mk (.ok ("zip"))
        (fun r => if r = "r1" then
          RegionEnv.mk (.error ("nf")) (.error ("dead1")) (.ok [])
            (UploadEnv.mk (.ok ("c")) (.ok ("cfg")))
            (BindingApi.mk (fun _ _ _ _ _ => .ok ("c")) (fun _ _ _ _ => .ok ("u"))
              (fun _ => .ok ("d")))
            (fun _ => .ok ("s"))
        else
          RegionEnv.mk (.error ("nf")) (.ok ("arn")) (.ok [])
            (UploadEnv.mk (.ok ("c")) (.ok ("cfg")))
            (BindingApi.mk (fun _ _ _ _ _ => .ok ("c")) (fun _ _ _ _ => .ok ("u"))
              (fun _ => .ok ("d")))
            (fun _ => .ok ("s")))
        none)
      (Program.mk ("nodejs6.10") ("r1,r2") ("fn") none none)).1 =
      .loggedError ("dead1") ∧
    (("r2"), RegionCall.createFunction) ∈
      (Lambda.deploy
        (DeployEnv.mk (.ok ("zip"))
          (fun r => if r = "r1" then
            RegionEnv.mk (.error ("nf")) (.error ("dead1")) (.ok [])
              (UploadEnv.mk (.ok ("c")) (.ok ("cfg")))
              (BindingApi.mk (fun _ _ _ _ _ => .ok ("c")) (fun _ _ _ _ => .ok ("u"))
                (fun _ => .ok ("d")))
              (fun _ => .ok ("s"))
          else
            RegionEnv.mk (.error ("nf")) (.ok ("arn")) (.ok [])
              (UploadEnv.mk (.ok ("c")) (.ok ("cfg")))
              (BindingApi.mk (fun _ _ _ _ _ => .ok ("c")) (fun _ _ _ _ => .ok ("u"))
                (fun _ => .ok ("d")))
              (fun _ => .ok ("s")))
          none)
        (Program.mk ("nodejs6.10") ("r1,r2") ("fn") none none)).2 := by
  refine ⟨?_, ?_, ?_⟩
  · exact (claim1_deploy_aggregation
      (DeployEnv.mk (.ok ("zip"))
        (fun _ =>
          RegionEnv.mk (.error ("nf")) (.ok ("arn")) (.ok [])
            (UploadEnv.mk (.ok ("c")) (.ok ("cfg")))
            (BindingApi.mk (fun _ _ _ _ _ => .ok ("c")) (fun _ _ _ _ => .ok ("u"))
              (fun _ => .ok ("d")))
            (fun _ => .ok ("s")))
        none)
      (Program.mk ("nodejs6.10") ("r1,r2") ("fn") none none)
      ("zip") (EventSourceListResult.mk none none)
      (fun _ => RegionValue.created [] []) ("dead1") [] [("r2")] ("r1")).1
      rfl rfl (fun r hr => rfl)
  · exact (claim1_deploy_aggregation
      (DeployEnv.mk (.ok ("zip"))
        (fun r => if r = "r1" then
          RegionEnv.mk (.error ("nf")) (.error ("dead1")) (.ok [])
            (UploadEnv.mk (.ok ("c")) (.ok ("cfg")))
            (BindingApi.mk (fun _ _ _ _ _ => .ok ("c")) (fun _ _ _ _ => .ok ("u"))
              (fun _ => .ok ("d")))
            (fun _ => .ok ("s"))
        else
          RegionEnv.mk (.error ("nf")) (.ok ("arn")) (.ok [])
            (UploadEnv.mk (.ok ("c")) (.ok ("cfg")))
            (BindingApi.mk (fun _ _ _ _ _ => .ok ("c")) (fun _ _ _ _ => .ok ("u"))
              (fun _ => .ok ("d")))
            (fun _ => .ok ("s")))
        none)
      (Program.mk ("nodejs6.10") ("r1,r2") ("fn") none none)
      ("zip") (EventSourceListResult.mk none none)
      (fun _ => RegionValue.created [] []) ("dead1") [] [("r2")] ("r1")).2.1
      rfl rfl rfl (fun r hr => absurd hr (List.not_mem_nil r)) rfl
  · exact (claim1_deploy_aggregation
      (DeployEnv.mk (.ok ("zip"))
        (fun r => if r = "r1" then
          RegionEnv.mk (.error ("nf")) (.error ("dead1")) (.ok [])
            (UploadEnv.mk (.ok ("c")) (.ok ("cfg")))
            (BindingApi.mk (fun _ _ _ _ _ => .ok ("c")) (fun _ _ _ _ => .ok ("u"))
              (fun _ => .ok ("d")))
            (fun _ => .ok ("s"))
        else
          RegionEnv.mk (.error ("nf")) (.ok ("arn")) (.ok [])
            (UploadEnv.mk (.ok ("c")) (.ok ("cfg")))
            (BindingApi.mk (fun _ _ _ _ _ => .ok ("c")) (fun _ _ _ _ => .ok ("u"))
              (fun _ => .ok ("d")))
            (fun _ => .ok ("s")))
        none)
      (Program.mk ("nodejs6.10") ("r1,r2") ("fn") none none)
      ("zip") (EventSourceListResult.mk none none)
      (fun _ => RegionValue.created [] []) ("dead1") [] [("r2")] ("r1")).2.2
      rfl rfl ("r2") (by decide) RegionCall.createFunction (by decide)
